import Mathlib

/-!
Verification of the work-distribution core of the Multithreaded-Web-Crawler
repository: a capacity-bounded FIFO queue (`BoundedQueue`) and a deduplicating
URL frontier (`URLFrontier`).

The frontier's `try_add` is embedded directly from the repository source
(`src/include/crawler/url_frontier.h`).  The `BoundedQueue` implementation file
(`include/crawler/bounded_queue.h`) is referenced by the source but absent from
the repository snapshot, so its operations are modelled from the specification
(section 4.1), in a sequential (interleaving-free) semantics: a blocking wait
whose timeout expires with no state change is modelled as an immediate failure.
-/

/-- Modelled from the spec: `BoundedQueue<T>` data model (section 3).
`capacity` is fixed at construction; `items` is an ordered FIFO sequence;
`shutdown_flag` is a monotonic false-to-true flag.  The implementation file
`include/crawler/bounded_queue.h` is not present in the repository. -/
structure BoundedQueue (α : Type) where
  capacity : Nat
  items : List α
  shutdown_flag : Bool
deriving Repr, DecidableEq

/-- Modelled from the spec: `push(value, timeout) -> bool` (section 4.1).
After shutdown no push succeeds; with room the value is appended to the tail
and `true` is returned; otherwise (full queue, timeout elapses) `false` is
returned and the value is not enqueued.  Sequentially, a timed-out wait on a
full queue is an immediate `false`. -/
def BoundedQueue.push {α : Type} (q : BoundedQueue α) (value : α) (timeout : Nat) :
    Bool × BoundedQueue α :=
  if q.shutdown_flag then (false, q)
  else if q.items.length < q.capacity then
    (true, { q with items := q.items ++ [value] })
  else (false, q)

/-- Modelled from the spec: `pop(timeout) -> optional<T>` (section 4.1).
Removes and returns the head item when one exists (items remain poppable after
shutdown until drained); returns empty when no item is available (timeout
elapsed empty, or shutdown with nothing left). -/
def BoundedQueue.pop {α : Type} (q : BoundedQueue α) (timeout : Nat) :
    Option α × BoundedQueue α :=
  match q.items with
  | [] => (none, q)
  | x :: rest => (some x, { q with items := rest })

/-- Modelled from the spec: `size()` snapshot (section 4.1). -/
def BoundedQueue.size {α : Type} (q : BoundedQueue α) : Nat :=
  q.items.length

/-- Modelled from the spec: `empty()` snapshot (section 4.1). -/
def BoundedQueue.isEmpty {α : Type} (q : BoundedQueue α) : Bool :=
  q.items.isEmpty

/-- Modelled from the spec: `shutdown()` sets the shutdown flag (section 4.1);
the flag is never reset. -/
def BoundedQueue.shutdown {α : Type} (q : BoundedQueue α) : BoundedQueue α :=
  { q with shutdown_flag := true }

/-- Modelled from the spec: `is_shutdown()` non-blocking snapshot. -/
def BoundedQueue.is_shutdown {α : Type} (q : BoundedQueue α) : Bool :=
  q.shutdown_flag

/-- A freshly constructed queue of the given capacity: empty, not shut down. -/
def initQueue (α : Type) (c : Nat) : BoundedQueue α :=
  { capacity := c, items := [], shutdown_flag := false }

/-- Boolean membership in a list of strings: the embedding of
`std::unordered_set<std::string>::count(url) > 0`. -/
def memb (url : String) : List String → Bool
  | [] => false
  | x :: rest => if x = url then true else memb url rest

/-- The embedding of `std::unordered_set<std::string>::insert(url)`: returns
the updated set together with the `inserted` flag (`true` iff the element was
newly added). -/
def insertVisited (visited : List String) (url : String) : List String × Bool :=
  if memb url visited then (visited, false) else (url :: visited, true)

/-- The `URLFrontier` state from `src/include/crawler/url_frontier.h`: the
embedded queue `queue_`, the dedup set `visited_`, and the three atomic
counters `urls_added_`, `duplicates_skipped_`, `invalid_skipped_`. -/
structure URLFrontier where
  queue : BoundedQueue String
  visited : List String
  urls_added : Nat
  duplicates_skipped : Nat
  invalid_skipped : Nat
deriving Repr, DecidableEq

/-- The `URLFrontier::Stats` struct from `src/include/crawler/url_frontier.h`. -/
structure Stats where
  urls_added : Nat
  duplicates_skipped : Nat
  invalid_skipped : Nat
deriving Repr, DecidableEq

/-- `URLFrontier::stats()` from `src/include/crawler/url_frontier.h`
(lines 105-111): a point-in-time copy of the three counters. -/
def URLFrontier.stats (f : URLFrontier) : Stats :=
  { urls_added := f.urls_added
    duplicates_skipped := f.duplicates_skipped
    invalid_skipped := f.invalid_skipped }

/-- `URLFrontier::try_add` embedded from `src/include/crawler/url_frontier.h`
(lines 136-166): first a read-locked membership probe of `visited_`
(duplicate: bump `duplicates_skipped_`, return false); then a write-locked
insert with re-check (lost race: bump `duplicates_skipped_`, return false);
on fresh insertion delegate to `queue_.push(url, timeout)`, bumping
`urls_added_` and returning true on success, and returning false with no
counter change when the push fails. -/
def URLFrontier.try_add (f : URLFrontier) (url : String) (timeout : Nat) :
    Bool × URLFrontier :=
  if memb url f.visited then
    (false, { f with duplicates_skipped := f.duplicates_skipped + 1 })
  else
    let ins := insertVisited f.visited url
    if ins.2 = false then
      (false, { f with duplicates_skipped := f.duplicates_skipped + 1 })
    else
      let f1 : URLFrontier := { f with visited := ins.1 }
      let pr := f1.queue.push url timeout
      if pr.1 then
        (true, { f1 with queue := pr.2, urls_added := f1.urls_added + 1 })
      else
        (false, { f1 with queue := pr.2 })

/-- Modelled from the spec: `try_add_nowait(url)` is `try_add` with a zero
wait (section 4.2); its implementation is not present in the repository. -/
def URLFrontier.try_add_nowait (f : URLFrontier) (url : String) :
    Bool × URLFrontier :=
  f.try_add url 0

/-- Helper for `add_batch`: apply `try_add_nowait` to each URL in sequence,
counting the ones newly enqueued. -/
def addBatchGo (f : URLFrontier) : List String → Nat × URLFrontier
  | [] => (0, f)
  | u :: rest =>
    let r := f.try_add_nowait u
    let rest2 := addBatchGo r.2 rest
    ((if r.1 then 1 else 0) + rest2.1, rest2.2)

/-- Modelled from the spec: `add_batch(urls)` applies `try_add_nowait` to each
URL in sequence and returns the count newly enqueued (section 4.2); its
implementation is not present in the repository. -/
def URLFrontier.add_batch (f : URLFrontier) (urls : List String) :
    Nat × URLFrontier :=
  addBatchGo f urls

/-- Modelled from the spec: frontier `pop(timeout)` is a thin delegation to
the embedded queue (section 4.2). -/
def URLFrontier.pop (f : URLFrontier) (timeout : Nat) :
    Option String × URLFrontier :=
  let r := f.queue.pop timeout
  (r.1, { f with queue := r.2 })

/-- Modelled from the spec: `is_visited(url)` read-only membership test
(section 4.2). -/
def URLFrontier.is_visited (f : URLFrontier) (url : String) : Bool :=
  memb url f.visited

/-- Modelled from the spec: `mark_visited(url)` write-locked insertion into
`visited` without touching the queue (section 4.2). -/
def URLFrontier.mark_visited (f : URLFrontier) (url : String) : URLFrontier :=
  { f with visited := (insertVisited f.visited url).1 }

/-- Modelled from the spec: frontier `shutdown()` signals the embedded
queue's shutdown (sections 4.1-4.2). -/
def URLFrontier.shutdown (f : URLFrontier) : URLFrontier :=
  { f with queue := f.queue.shutdown }

/-- `URLFrontier::is_shutdown` from `src/include/crawler/url_frontier.h`
(line 74): `return queue_.is_shutdown();`. -/
def URLFrontier.is_shutdown (f : URLFrontier) : Bool :=
  f.queue.is_shutdown

/-- `URLFrontier::queue_size` from the source header: `queue_.size()`. -/
def URLFrontier.queue_size (f : URLFrontier) : Nat :=
  f.queue.size

/-- `URLFrontier::queue_empty` from the source header: `queue_.empty()`. -/
def URLFrontier.queue_empty (f : URLFrontier) : Bool :=
  f.queue.isEmpty

/-- `URLFrontier::capacity` from the source header: `queue_.capacity()`. -/
def URLFrontier.cap (f : URLFrontier) : Nat :=
  f.queue.capacity

/-- Modelled from the spec: `visited_count()` (section 4.2). -/
def URLFrontier.visited_count (f : URLFrontier) : Nat :=
  f.visited.length

/-- The constructor `URLFrontier(queue_capacity)`: fresh queue of the given
capacity, empty visited set, zeroed counters. -/
def initFrontier (c : Nat) : URLFrontier :=
  { queue := initQueue String c
    visited := []
    urls_added := 0
    duplicates_skipped := 0
    invalid_skipped := 0 }

/-- Operations of the public `URLFrontier` interface, for trace reasoning. -/
inductive FOp where
  | tryAdd (url : String) (timeout : Nat)
  | tryAddNowait (url : String)
  | addBatch (urls : List String)
  | popOp (timeout : Nat)
  | markVisited (url : String)
  | shutdownOp
deriving Repr, DecidableEq

/-- One step of the frontier state machine: apply a public operation,
discarding the returned value. -/
def stepF (f : URLFrontier) : FOp → URLFrontier
  | FOp.tryAdd url t => (f.try_add url t).2
  | FOp.tryAddNowait url => (f.try_add_nowait url).2
  | FOp.addBatch urls => (f.add_batch urls).2
  | FOp.popOp t => (f.pop t).2
  | FOp.markVisited url => f.mark_visited url
  | FOp.shutdownOp => f.shutdown

/-- Run a sequence of frontier operations from a given state. -/
def runFrom (f : URLFrontier) : List FOp → URLFrontier
  | [] => f
  | op :: rest => runFrom (stepF f op) rest

/-- Run a sequence of frontier operations from a freshly constructed frontier
of capacity `c`. -/
def runF (c : Nat) (ops : List FOp) : URLFrontier :=
  runFrom (initFrontier c) ops

/-- Operations of the public `BoundedQueue` interface, for trace reasoning. -/
inductive QOp (α : Type) where
  | pushOp (v : α) (timeout : Nat)
  | popOp (timeout : Nat)
  | shutdownOp
deriving Repr, DecidableEq

/-- One step of the queue state machine, discarding the returned value. -/
def stepQ {α : Type} (q : BoundedQueue α) : QOp α → BoundedQueue α
  | QOp.pushOp v t => (q.push v t).2
  | QOp.popOp t => (q.pop t).2
  | QOp.shutdownOp => q.shutdown

/-- Run a sequence of queue operations from a given queue state. -/
def runQFrom {α : Type} (q : BoundedQueue α) : List (QOp α) → BoundedQueue α
  | [] => q
  | op :: rest => runQFrom (stepQ q op) rest

/-- Run a sequence of queue operations from a freshly constructed queue of
capacity `c`. -/
def runQ (c : Nat) (ops : List (QOp String)) : BoundedQueue String :=
  runQFrom (initQueue String c) ops

/-- Call `URLFrontier.shutdown` `n` times in a row. -/
def shutdownN (n : Nat) (f : URLFrontier) : URLFrontier :=
  match n with
  | 0 => f
  | m + 1 => shutdownN m f.shutdown

/-- Number of `tryAdd u _` operations with `u = U` in the trace that return
`true` when the trace is run from state `f`. -/
def trueAdds (U : String) (f : URLFrontier) : List FOp → Nat
  | [] => 0
  | FOp.tryAdd u t :: rest =>
    (if u = U ∧ (f.try_add u t).1 = true then 1 else 0) +
      trueAdds U (stepF f (FOp.tryAdd u t)) rest
  | op :: rest => trueAdds U (stepF f op) rest

/-- Instrumented queue run: returns the final queue, the list of successfully
pushed values in push order, and the list of popped values in pop order. -/
def runQT {α : Type} (q : BoundedQueue α) (pushed popped : List α) :
    List (QOp α) → BoundedQueue α × List α × List α
  | [] => (q, pushed, popped)
  | QOp.pushOp v t :: rest =>
    let r := q.push v t
    runQT r.2 (if r.1 then pushed ++ [v] else pushed) popped rest
  | QOp.popOp t :: rest =>
    let r := q.pop t
    runQT r.2 pushed
      (match r.1 with
       | some v => popped ++ [v]
       | none => popped) rest
  | QOp.shutdownOp :: rest => runQT q.shutdown pushed popped rest

/-- Apply `pop` once per element of the timeout list `ts`, collecting the
returned results in order. -/
def popSeq {α : Type} (q : BoundedQueue α) : List Nat → List (Option α) × BoundedQueue α
  | [] => ([], q)
  | t :: ts =>
    let r := q.pop t
    let rest := popSeq r.2 ts
    (r.1 :: rest.1, rest.2)

/-! ### Basic lemmas about `memb` -/

theorem memb_cons_of (x a : String) (l : List String) (h : memb x l = true) :
    memb x (a :: l) = true := by
  simp only [memb]
  split <;> simp [h]

theorem memb_cons_self (x : String) (l : List String) :
    memb x (x :: l) = true := by
  simp [memb]

theorem memb_append (x : String) (l₁ l₂ : List String) :
    memb x (l₁ ++ l₂) = (memb x l₁ || memb x l₂) := by
  induction l₁ with
  | nil => simp [memb]
  | cons a l ih =>
    simp only [List.cons_append, memb]
    split <;> simp [ih]

/-! ### Shape lemmas for the queue operations -/

theorem push_spec {α : Type} (q : BoundedQueue α) (v : α) (t : Nat) :
    (q.shutdown_flag = true ∧ q.push v t = (false, q)) ∨
    (q.shutdown_flag = false ∧ q.items.length < q.capacity ∧
      q.push v t = (true, { q with items := q.items ++ [v] })) ∨
    (q.shutdown_flag = false ∧ ¬ q.items.length < q.capacity ∧
      q.push v t = (false, q)) := by
  by_cases hs : q.shutdown_flag = true
  · exact Or.inl ⟨hs, by simp [BoundedQueue.push, hs]⟩
  · have hs' : q.shutdown_flag = false := by simpa using hs
    by_cases hl : q.items.length < q.capacity
    · exact Or.inr (Or.inl ⟨hs', hl, by simp [BoundedQueue.push, hs', hl]⟩)
    · exact Or.inr (Or.inr ⟨hs', hl, by simp [BoundedQueue.push, hs', hl]⟩)

theorem push_shutdown_of_flag {α : Type} (q : BoundedQueue α) (v : α) (t : Nat)
    (h : q.shutdown_flag = true) : q.push v t = (false, q) := by
  simp [BoundedQueue.push, h]

theorem push_snd_flag {α : Type} (q : BoundedQueue α) (v : α) (t : Nat) :
    ((q.push v t).2).shutdown_flag = q.shutdown_flag := by
  rcases push_spec q v t with ⟨_, e⟩ | ⟨_, _, e⟩ | ⟨_, _, e⟩ <;> rw [e]

theorem pop_spec {α : Type} (q : BoundedQueue α) (t : Nat) :
    (q.items = [] ∧ q.pop t = (none, q)) ∨
    (∃ x rest, q.items = x :: rest ∧ q.pop t = (some x, { q with items := rest })) := by
  cases hq : q.items with
  | nil => exact Or.inl ⟨rfl, by simp [BoundedQueue.pop, hq]⟩
  | cons x rest => exact Or.inr ⟨x, rest, rfl, by simp [BoundedQueue.pop, hq]⟩

theorem pop_snd_flag {α : Type} (q : BoundedQueue α) (t : Nat) :
    ((q.pop t).2).shutdown_flag = q.shutdown_flag := by
  rcases pop_spec q t with ⟨_, e⟩ | ⟨x, rest, _, e⟩ <;> rw [e]

/-! ### Shape lemma for `try_add` -/

theorem try_add_spec (f : URLFrontier) (url : String) (t : Nat) :
    (memb url f.visited = true ∧
      f.try_add url t = (false, { f with duplicates_skipped := f.duplicates_skipped + 1 })) ∨
    (memb url f.visited = false ∧ (f.queue.push url t).1 = true ∧
      f.try_add url t =
        (true,
          { f with
              visited := url :: f.visited
              queue := (f.queue.push url t).2
              urls_added := f.urls_added + 1 })) ∨
    (memb url f.visited = false ∧ (f.queue.push url t).1 = false ∧
      f.try_add url t =
        (false,
          { f with
              visited := url :: f.visited
              queue := (f.queue.push url t).2 })) := by
  by_cases h : memb url f.visited = true
  · exact Or.inl ⟨h, by simp [URLFrontier.try_add, h]⟩
  · have h' : memb url f.visited = false := by simpa using h
    by_cases hp : (f.queue.push url t).1 = true
    · refine Or.inr (Or.inl ⟨h', hp, ?_⟩)
      simp [URLFrontier.try_add, insertVisited, h', hp]
    · have hp' : (f.queue.push url t).1 = false := by simpa using hp
      refine Or.inr (Or.inr ⟨h', hp', ?_⟩)
      simp [URLFrontier.try_add, insertVisited, h', hp']

/-! ### Derived lemmas about `try_add` -/

theorem try_add_false_of_visited (f : URLFrontier) (url : String) (t : Nat)
    (h : memb url f.visited = true) :
    f.try_add url t = (false, { f with duplicates_skipped := f.duplicates_skipped + 1 }) := by
  rcases try_add_spec f url t with ⟨_, e⟩ | ⟨h2, _, _⟩ | ⟨h2, _, _⟩
  · exact e
  · simp [h] at h2
  · simp [h] at h2

theorem try_add_visited_mono (f : URLFrontier) (url x : String) (t : Nat)
    (h : memb x f.visited = true) :
    memb x (f.try_add url t).2.visited = true := by
  rcases try_add_spec f url t with ⟨_, e⟩ | ⟨_, _, e⟩ | ⟨_, _, e⟩ <;> rw [e]
  · simpa using h
  · simpa using memb_cons_of x url f.visited h
  · simpa using memb_cons_of x url f.visited h

theorem try_add_self_visited (f : URLFrontier) (url : String) (t : Nat) :
    memb url (f.try_add url t).2.visited = true := by
  rcases try_add_spec f url t with ⟨h, e⟩ | ⟨_, _, e⟩ | ⟨_, _, e⟩ <;> rw [e]
  · simpa using h
  · simpa using memb_cons_self url f.visited
  · simpa using memb_cons_self url f.visited

theorem try_add_invalid (f : URLFrontier) (url : String) (t : Nat) :
    (f.try_add url t).2.invalid_skipped = f.invalid_skipped := by
  rcases try_add_spec f url t with ⟨_, e⟩ | ⟨_, _, e⟩ | ⟨_, _, e⟩ <;> rw [e]

theorem try_add_items (f : URLFrontier) (url : String) (t : Nat) :
    (f.try_add url t).2.queue.items = f.queue.items ∨
    (f.try_add url t).2.queue.items = f.queue.items ++ [url] := by
  rcases try_add_spec f url t with ⟨_, e⟩ | ⟨_, hp, e⟩ | ⟨_, hp, e⟩
  · rw [e]; exact Or.inl rfl
  · rw [e]
    rcases push_spec f.queue url t with ⟨_, ep⟩ | ⟨_, _, ep⟩ | ⟨_, _, ep⟩
    · rw [ep] at hp; simp at hp
    · rw [ep]; exact Or.inr rfl
    · rw [ep] at hp; simp at hp
  · rw [e]
    rcases push_spec f.queue url t with ⟨_, ep⟩ | ⟨_, _, ep⟩ | ⟨_, _, ep⟩
    · rw [ep]; exact Or.inl rfl
    · rw [ep] at hp; simp at hp
    · rw [ep]; exact Or.inl rfl

theorem try_add_queue_flag (f : URLFrontier) (url : String) (t : Nat) :
    (f.try_add url t).2.queue.shutdown_flag = f.queue.shutdown_flag := by
  rcases try_add_spec f url t with ⟨_, e⟩ | ⟨_, _, e⟩ | ⟨_, _, e⟩ <;> rw [e] <;>
    simpa using push_snd_flag f.queue url t

/-! ### Lemmas about `insertVisited` and `memb` singletons -/

theorem insertVisited_mono (v : List String) (u x : String)
    (h : memb x v = true) : memb x (insertVisited v u).1 = true := by
  by_cases hc : memb u v = true
  · simpa [insertVisited, hc] using h
  · have hc' : memb u v = false := by simpa using hc
    simpa [insertVisited, hc'] using memb_cons_of x u v h

theorem memb_singleton (x u : String) (h : memb x [u] = true) : u = x := by
  by_cases e : u = x
  · exact e
  · simp [memb, e] at h

/-! ### Step-level lemmas for frontier traces -/

theorem addBatchGo_visited_mono (urls : List String) (f : URLFrontier) (x : String)
    (h : memb x f.visited = true) :
    memb x (addBatchGo f urls).2.visited = true := by
  induction urls generalizing f with
  | nil => simpa using h
  | cons u rest ih =>
    simp only [addBatchGo, URLFrontier.try_add_nowait]
    exact ih _ (try_add_visited_mono f u x 0 h)

theorem stepF_visited_mono (f : URLFrontier) (op : FOp) (x : String)
    (h : memb x f.visited = true) :
    memb x (stepF f op).visited = true := by
  cases op with
  | tryAdd url t => exact try_add_visited_mono f url x t h
  | tryAddNowait url => exact try_add_visited_mono f url x 0 h
  | addBatch urls => exact addBatchGo_visited_mono urls f x h
  | popOp t => simpa [stepF, URLFrontier.pop] using h
  | markVisited url =>
    simpa [stepF, URLFrontier.mark_visited] using
      insertVisited_mono f.visited url x h
  | shutdownOp => simpa [stepF, URLFrontier.shutdown] using h

theorem runFrom_visited_mono (ops : List FOp) (f : URLFrontier) (x : String)
    (h : memb x f.visited = true) :
    memb x (runFrom f ops).visited = true := by
  induction ops generalizing f with
  | nil => simpa using h
  | cons op rest ih =>
    simp only [runFrom]
    exact ih _ (stepF_visited_mono f op x h)

theorem runFrom_append (p q : List FOp) (f : URLFrontier) :
    runFrom f (p ++ q) = runFrom (runFrom f p) q := by
  induction p generalizing f with
  | nil => rfl
  | cons op rest ih =>
    simp only [List.cons_append, runFrom]
    exact ih _

theorem try_add_QV (f : URLFrontier) (url : String) (t : Nat)
    (h : ∀ x, memb x f.queue.items = true → memb x f.visited = true) :
    ∀ x, memb x (f.try_add url t).2.queue.items = true →
      memb x (f.try_add url t).2.visited = true := by
  intro x hx
  rcases try_add_items f url t with e | e
  · rw [e] at hx
    exact try_add_visited_mono f url x t (h x hx)
  · rw [e, memb_append] at hx
    by_cases h1 : memb x f.queue.items = true
    · exact try_add_visited_mono f url x t (h x h1)
    · have h1' : memb x f.queue.items = false := by simpa using h1
      rw [h1'] at hx
      simp only [Bool.false_or] at hx
      have e2 := memb_singleton x url hx
      subst e2
      exact try_add_self_visited f url t

theorem addBatchGo_QV (urls : List String) (f : URLFrontier)
    (h : ∀ x, memb x f.queue.items = true → memb x f.visited = true) :
    ∀ x, memb x (addBatchGo f urls).2.queue.items = true →
      memb x (addBatchGo f urls).2.visited = true := by
  induction urls generalizing f with
  | nil => simpa using h
  | cons u rest ih =>
    simp only [addBatchGo, URLFrontier.try_add_nowait]
    exact ih _ (try_add_QV f u 0 h)

theorem stepF_QV (f : URLFrontier) (op : FOp)
    (h : ∀ x, memb x f.queue.items = true → memb x f.visited = true) :
    ∀ x, memb x (stepF f op).queue.items = true →
      memb x (stepF f op).visited = true := by
  cases op with
  | tryAdd url t => exact try_add_QV f url t h
  | tryAddNowait url => exact try_add_QV f url 0 h
  | addBatch urls => exact addBatchGo_QV urls f h
  | popOp t =>
    intro x hx
    rcases pop_spec f.queue t with ⟨_, e⟩ | ⟨y, rest, he, e⟩
    · simp only [stepF, URLFrontier.pop, e] at hx ⊢
      exact h x hx
    · simp only [stepF, URLFrontier.pop, e] at hx ⊢
      exact h x (by rw [he]; exact memb_cons_of x y rest hx)
  | markVisited url =>
    intro x hx
    simp only [stepF, URLFrontier.mark_visited] at hx ⊢
    exact insertVisited_mono f.visited url x (h x hx)
  | shutdownOp =>
    intro x hx
    simp only [stepF, URLFrontier.shutdown, BoundedQueue.shutdown] at hx ⊢
    exact h x hx

theorem runFrom_QV (ops : List FOp) (f : URLFrontier)
    (h : ∀ x, memb x f.queue.items = true → memb x f.visited = true) :
    ∀ x, memb x (runFrom f ops).queue.items = true →
      memb x (runFrom f ops).visited = true := by
  induction ops generalizing f with
  | nil => simpa using h
  | cons op rest ih =>
    simp only [runFrom]
    exact ih _ (stepF_QV f op h)

/-! ### Preservation of the `invalid_skipped` counter -/

theorem addBatchGo_invalid (urls : List String) (f : URLFrontier) :
    (addBatchGo f urls).2.invalid_skipped = f.invalid_skipped := by
  induction urls generalizing f with
  | nil => rfl
  | cons u rest ih =>
    simp only [addBatchGo, URLFrontier.try_add_nowait]
    rw [ih _, try_add_invalid]

theorem stepF_invalid (f : URLFrontier) (op : FOp) :
    (stepF f op).invalid_skipped = f.invalid_skipped := by
  cases op with
  | tryAdd url t => exact try_add_invalid f url t
  | tryAddNowait url => exact try_add_invalid f url 0
  | addBatch urls => exact addBatchGo_invalid urls f
  | popOp t => rfl
  | markVisited url => rfl
  | shutdownOp => rfl

theorem runFrom_invalid (ops : List FOp) (f : URLFrontier) :
    (runFrom f ops).invalid_skipped = f.invalid_skipped := by
  induction ops generalizing f with
  | nil => rfl
  | cons op rest ih =>
    simp only [runFrom]
    rw [ih _, stepF_invalid]

/-! ### Preservation of the shutdown flag -/

theorem addBatchGo_flag (urls : List String) (f : URLFrontier) :
    (addBatchGo f urls).2.queue.shutdown_flag = f.queue.shutdown_flag := by
  induction urls generalizing f with
  | nil => rfl
  | cons u rest ih =>
    simp only [addBatchGo, URLFrontier.try_add_nowait]
    rw [ih _, try_add_queue_flag]

theorem stepF_flag_true (f : URLFrontier) (op : FOp)
    (h : f.queue.shutdown_flag = true) :
    (stepF f op).queue.shutdown_flag = true := by
  cases op with
  | tryAdd url t => rw [stepF, try_add_queue_flag]; exact h
  | tryAddNowait url =>
    simp only [stepF, URLFrontier.try_add_nowait]
    rw [try_add_queue_flag]; exact h
  | addBatch urls =>
    simp only [stepF, URLFrontier.add_batch]
    rw [addBatchGo_flag]; exact h
  | popOp t =>
    simp only [stepF, URLFrontier.pop]
    rw [pop_snd_flag]; exact h
  | markVisited url => exact h
  | shutdownOp => rfl

theorem runFrom_flag_true (ops : List FOp) (f : URLFrontier)
    (h : f.queue.shutdown_flag = true) :
    (runFrom f ops).queue.shutdown_flag = true := by
  induction ops generalizing f with
  | nil => simpa using h
  | cons op rest ih =>
    simp only [runFrom]
    exact ih _ (stepF_flag_true f op h)

/-! ### At most one `try_add` per URL returns true -/

theorem trueAdds_zero_of_visited (U : String) (ops : List FOp) (f : URLFrontier)
    (h : memb U f.visited = true) :
    trueAdds U f ops = 0 := by
  induction ops generalizing f with
  | nil => rfl
  | cons op rest ih =>
    cases op with
    | tryAdd u t =>
      simp only [trueAdds]
      rw [ih _ (stepF_visited_mono f (FOp.tryAdd u t) U h)]
      by_cases hu : u = U
      · subst hu
        have e := try_add_false_of_visited f u t h
        simp [e]
      · simp [hu]
    | tryAddNowait u =>
      simp only [trueAdds]
      exact ih _ (stepF_visited_mono f (FOp.tryAddNowait u) U h)
    | addBatch urls =>
      simp only [trueAdds]
      exact ih _ (stepF_visited_mono f (FOp.addBatch urls) U h)
    | popOp t =>
      simp only [trueAdds]
      exact ih _ (stepF_visited_mono f (FOp.popOp t) U h)
    | markVisited u =>
      simp only [trueAdds]
      exact ih _ (stepF_visited_mono f (FOp.markVisited u) U h)
    | shutdownOp =>
      simp only [trueAdds]
      exact ih _ (stepF_visited_mono f FOp.shutdownOp U h)

theorem trueAdds_le_one (U : String) (ops : List FOp) (f : URLFrontier) :
    trueAdds U f ops ≤ 1 := by
  induction ops generalizing f with
  | nil => exact Nat.zero_le 1
  | cons op rest ih =>
    cases op with
    | tryAdd u t =>
      simp only [trueAdds]
      by_cases hc : u = U ∧ (f.try_add u t).1 = true
      · rw [if_pos hc]
        have hv : memb U ((f.try_add u t).2).visited = true := by
          rcases hc with ⟨hu, _⟩
          subst hu
          exact try_add_self_visited f u t
        have hz := trueAdds_zero_of_visited U rest ((f.try_add u t).2) hv
        simp only [stepF]
        omega
      · rw [if_neg hc]
        simpa using ih _
    | tryAddNowait u => simpa only [trueAdds] using ih _
    | addBatch urls => simpa only [trueAdds] using ih _
    | popOp t => simpa only [trueAdds] using ih _
    | markVisited u => simpa only [trueAdds] using ih _
    | shutdownOp => simpa only [trueAdds] using ih _

/-! ### Queue capacity invariant -/

theorem stepQ_capacity {α : Type} (q : BoundedQueue α) (op : QOp α) :
    (stepQ q op).capacity = q.capacity := by
  cases op with
  | pushOp v t =>
    rcases push_spec q v t with ⟨_, e⟩ | ⟨_, _, e⟩ | ⟨_, _, e⟩ <;>
      simp [stepQ, e]
  | popOp t =>
    rcases pop_spec q t with ⟨_, e⟩ | ⟨x, rest, _, e⟩ <;> simp [stepQ, e]
  | shutdownOp => rfl

theorem stepQ_len {α : Type} (q : BoundedQueue α) (op : QOp α)
    (h : q.items.length ≤ q.capacity) :
    (stepQ q op).items.length ≤ q.capacity := by
  cases op with
  | pushOp v t =>
    rcases push_spec q v t with ⟨_, e⟩ | ⟨_, hl, e⟩ | ⟨_, _, e⟩
    · simpa [stepQ, e] using h
    · simp only [stepQ, e]
      simp only [List.length_append, List.length_cons, List.length_nil]
      omega
    · simpa [stepQ, e] using h
  | popOp t =>
    rcases pop_spec q t with ⟨_, e⟩ | ⟨x, rest, he, e⟩
    · simpa [stepQ, e] using h
    · simp only [stepQ, e]
      have hlen : q.items.length = rest.length + 1 := by
        rw [he]; rfl
      omega
  | shutdownOp => simpa [stepQ, BoundedQueue.shutdown] using h

theorem runQFrom_inv {α : Type} (ops : List (QOp α)) (q : BoundedQueue α)
    (h : q.items.length ≤ q.capacity) :
    (runQFrom q ops).items.length ≤ (runQFrom q ops).capacity ∧
    (runQFrom q ops).capacity = q.capacity := by
  induction ops generalizing q with
  | nil => exact ⟨h, rfl⟩
  | cons op rest ih =>
    simp only [runQFrom]
    have h1 := stepQ_len q op h
    have h2 := stepQ_capacity q op
    have h3 := ih (stepQ q op) (by rw [h2]; exact h1)
    exact ⟨h3.1, by rw [h3.2, h2]⟩

/-! ### FIFO: pushed values are popped values plus buffered remainder -/

theorem runQT_fifo {α : Type} (ops : List (QOp α)) (q : BoundedQueue α)
    (pushed popped : List α) (h : pushed = popped ++ q.items) :
    (runQT q pushed popped ops).2.1 =
      (runQT q pushed popped ops).2.2 ++ (runQT q pushed popped ops).1.items := by
  induction ops generalizing q pushed popped with
  | nil => simpa [runQT] using h
  | cons op rest ih =>
    cases op with
    | pushOp v t =>
      rcases push_spec q v t with ⟨_, e⟩ | ⟨_, _, e⟩ | ⟨_, _, e⟩
      · simp only [runQT, e]
        exact ih _ _ _ h
      · simp only [runQT, e, if_true]
        exact ih _ _ _ (by rw [h, List.append_assoc])
      · simp only [runQT, e]
        exact ih _ _ _ h
    | popOp t =>
      rcases pop_spec q t with ⟨_, e⟩ | ⟨x, rest2, he, e⟩
      · simp only [runQT, e]
        exact ih _ _ _ h
      · simp only [runQT, e]
        exact ih _ _ _ (by rw [h, he]; simp)
    | shutdownOp =>
      simp only [runQT]
      exact ih _ _ _ (by simpa [BoundedQueue.shutdown] using h)

/-! ### Draining the queue after shutdown -/

theorem popSeq_drain {α : Type} (l : List α) (ts : List Nat) (q : BoundedQueue α)
    (hq : q.items = l) (hts : ts.length = l.length) :
    popSeq q ts = (l.map some, { q with items := [] }) := by
  induction l generalizing q ts with
  | nil =>
    cases ts with
    | nil =>
      cases q with
      | mk cap items flag =>
        cases hq
        rfl
    | cons t ts2 => simp at hts
  | cons x rest ih =>
    cases ts with
    | nil => simp at hts
    | cons t ts2 =>
      have e : q.pop t = (some x, { q with items := rest }) := by
        simp [BoundedQueue.pop, hq]
      simp only [popSeq, e]
      have h2 := ih ts2 { q with items := rest } rfl (by simpa using hts)
      rw [h2]
      simp

/-! ### Shutdown idempotence -/

theorem frontier_shutdown_idem (f : URLFrontier) :
    f.shutdown.shutdown = f.shutdown := rfl

theorem shutdownN_of_pos (n : Nat) (f : URLFrontier) (h : 1 ≤ n) :
    shutdownN n f = f.shutdown := by
  induction n generalizing f with
  | zero => exact absurd h (by decide)
  | succ m ih =>
    cases Nat.eq_zero_or_pos m with
    | inl h0 =>
      subst h0
      rfl
    | inr hm =>
      show shutdownN m f.shutdown = f.shutdown
      rw [ih f.shutdown hm, frontier_shutdown_idem]

/-! ## Claim theorems -/

/-- Claim C1, counterexample: on a frontier of capacity 1, `try_add "a"` fills
the queue; then two `try_add "b"` calls both return false (no call for URL
"b" ever returns true), yet `duplicates_skipped` is incremented only by the
second of them — the first (whose queue push failed) returns false without
incrementing the counter, refuting "every other call returns false and
increments the duplicates_skipped counter by one". -/
theorem dedup_law_counterexample :
    ((((initFrontier 1).try_add "a" 0).2.try_add "b" 0).1 = false) ∧
    (((((initFrontier 1).try_add "a" 0).2.try_add "b" 0).2.try_add "b" 0).1 = false) ∧
    (((initFrontier 1).try_add "a" 0).2.duplicates_skipped = 0) ∧
    ((((initFrontier 1).try_add "a" 0).2.try_add "b" 0).2.duplicates_skipped = 0) ∧
    (((((initFrontier 1).try_add "a" 0).2.try_add "b" 0).2.try_add "b" 0).2.duplicates_skipped = 1) := by
  decide

/-- Claim C1 (amended): across any number of `try_add(U, _)` calls on the same
frontier, at most one call returns true; and every call made from a state in
which `U` is already in `visited` returns false and increments
`duplicates_skipped` by exactly one, leaving everything else unchanged.  (A
call that inserts `U` but whose queue push fails also returns false, without
incrementing `duplicates_skipped`.) -/
theorem dedup_law_amended (c : Nat) (U : String) (ops : List FOp)
    (g : URLFrontier) (t : Nat) (hU : memb U g.visited = true) :
    trueAdds U (initFrontier c) ops ≤ 1 ∧
    g.try_add U t = (false, { g with duplicates_skipped := g.duplicates_skipped + 1 }) :=
  ⟨trueAdds_le_one U ops (initFrontier c), try_add_false_of_visited g U t hU⟩

/-- Witness for the amended claim C1 at a concrete frontier. -/
theorem dedup_law_amended_witness :
    memb "u" (((initFrontier 2).try_add "u" 5).2).visited = true ∧
    (trueAdds "u" (initFrontier 2) [FOp.tryAdd "u" 5, FOp.tryAdd "u" 5] ≤ 1 ∧
      (((initFrontier 2).try_add "u" 5).2).try_add "u" 3 =
        (false, { (((initFrontier 2).try_add "u" 5).2) with
          duplicates_skipped := (((initFrontier 2).try_add "u" 5).2).duplicates_skipped + 1 })) :=
  ⟨by decide,
    dedup_law_amended 2 "u" [FOp.tryAdd "u" 5, FOp.tryAdd "u" 5]
      (((initFrontier 2).try_add "u" 5).2) 3 (by decide)⟩

/-- Claim C2: whenever a URL `x` is in the embedded queue's items after some
sequence `p` of frontier operations, `x` is in `visited` at that same moment,
and it remains in `visited` after any further operations `q` — `visited` is a
superset of everything ever queued. -/
theorem visited_superset_of_queued (c : Nat) (p q : List FOp) (x : String)
    (h : memb x (runF c p).queue.items = true) :
    memb x (runF c p).visited = true ∧
    memb x (runF c (p ++ q)).visited = true := by
  have h1 : memb x (runF c p).visited = true := by
    refine runFrom_QV p (initFrontier c) ?_ x h
    intro y hy
    simp [initFrontier, initQueue, memb] at hy
  refine ⟨h1, ?_⟩
  rw [runF, runFrom_append]
  exact runFrom_visited_mono q _ x h1

/-- Witness for claim C2 at a concrete trace. -/
theorem visited_superset_of_queued_witness :
    memb "a" (runF 2 [FOp.tryAdd "a" 1]).queue.items = true ∧
    (memb "a" (runF 2 [FOp.tryAdd "a" 1]).visited = true ∧
      memb "a" (runF 2 ([FOp.tryAdd "a" 1] ++ [FOp.shutdownOp])).visited = true) :=
  ⟨by decide,
    visited_superset_of_queued 2 [FOp.tryAdd "a" 1] [FOp.shutdownOp] "a" (by decide)⟩

/-- Claim C3, counterexample: on a frontier of capacity 1 whose queue already
holds "a", the terminal outcome of `try_add "b"` (returns false because the
queue push fails) increments none of the three counters: the stats are the
same before and after the call, refuting "every terminal outcome of an
insertion attempt increments exactly one of the three counters exactly
once". -/
theorem counter_accounting_counterexample :
    ((((initFrontier 1).try_add "a" 0).2.try_add "b" 0).1 = false) ∧
    ((((initFrontier 1).try_add "a" 0).2.try_add "b" 0).2.stats =
      { urls_added := 1, duplicates_skipped := 0, invalid_skipped := 0 }) ∧
    (((initFrontier 1).try_add "a" 0).2.stats =
      { urls_added := 1, duplicates_skipped := 0, invalid_skipped := 0 }) := by
  decide

/-- Claim C3 (amended): every terminal outcome of a `try_add` call increments
exactly one of the three counters — `urls_added` on success,
`duplicates_skipped` on dedup rejection — except a call whose underlying
queue push fails, which returns false and increments no counter at all.
Scenario 2 holds as stated: on an empty frontier `try_add "http://x"` returns
true with `urls_added` = 1, and a second `try_add "http://x"` returns false
with `duplicates_skipped` = 1. -/
theorem counter_accounting_amended (f : URLFrontier) (url : String) (t : Nat) :
    (((f.try_add url t).1 = true ∧
        (f.try_add url t).2.urls_added = f.urls_added + 1 ∧
        (f.try_add url t).2.duplicates_skipped = f.duplicates_skipped ∧
        (f.try_add url t).2.invalid_skipped = f.invalid_skipped) ∨
      ((f.try_add url t).1 = false ∧
        (f.try_add url t).2.urls_added = f.urls_added ∧
        (f.try_add url t).2.duplicates_skipped = f.duplicates_skipped + 1 ∧
        (f.try_add url t).2.invalid_skipped = f.invalid_skipped) ∨
      ((f.try_add url t).1 = false ∧ (f.queue.push url t).1 = false ∧
        (f.try_add url t).2.urls_added = f.urls_added ∧
        (f.try_add url t).2.duplicates_skipped = f.duplicates_skipped ∧
        (f.try_add url t).2.invalid_skipped = f.invalid_skipped)) ∧
    (((initFrontier 10).try_add "http://x" 100).1 = true ∧
      ((initFrontier 10).try_add "http://x" 100).2.urls_added = 1 ∧
      (((initFrontier 10).try_add "http://x" 100).2.try_add "http://x" 100).1 = false ∧
      (((initFrontier 10).try_add "http://x" 100).2.try_add "http://x" 100).2.duplicates_skipped = 1) := by
  constructor
  · rcases try_add_spec f url t with ⟨_, e⟩ | ⟨_, hp, e⟩ | ⟨_, hp, e⟩
    · exact Or.inr (Or.inl (by rw [e]; exact ⟨rfl, rfl, rfl, rfl⟩))
    · exact Or.inl (by rw [e]; exact ⟨rfl, rfl, rfl, rfl⟩)
    · exact Or.inr (Or.inr (by rw [e]; exact ⟨rfl, hp, rfl, rfl, rfl⟩))
  · decide

/-- Claim C4: if `url` is not yet visited and the underlying queue push fails,
`try_add` returns false, yet `url` remains in `visited` (no rollback), so a
later `try_add` of the same URL also returns false. -/
theorem no_rollback_on_push_failure (f : URLFrontier) (url : String) (t t2 : Nat)
    (h : memb url f.visited = false) (hp : (f.queue.push url t).1 = false) :
    (f.try_add url t).1 = false ∧
    memb url (f.try_add url t).2.visited = true ∧
    ((f.try_add url t).2.try_add url t2).1 = false := by
  rcases try_add_spec f url t with ⟨h2, _⟩ | ⟨_, hp2, _⟩ | ⟨_, _, e⟩
  · simp [h] at h2
  · simp [hp] at hp2
  · refine ⟨by rw [e], try_add_self_visited f url t, ?_⟩
    have hv := try_add_self_visited f url t
    rw [try_add_false_of_visited _ url t2 hv]

/-- Witness for claim C4: capacity-1 frontier already holding "a"; the push of
"b" fails, "b" stays visited, and a retry returns false. -/
theorem no_rollback_on_push_failure_witness :
    (memb "b" (((initFrontier 1).try_add "a" 0).2).visited = false ∧
      ((((initFrontier 1).try_add "a" 0).2).queue.push "b" 0).1 = false) ∧
    (((((initFrontier 1).try_add "a" 0).2).try_add "b" 0).1 = false ∧
      memb "b" ((((initFrontier 1).try_add "a" 0).2).try_add "b" 0).2.visited = true ∧
      (((((initFrontier 1).try_add "a" 0).2).try_add "b" 0).2.try_add "b" 7).1 = false) :=
  ⟨⟨by decide, by decide⟩,
    no_rollback_on_push_failure (((initFrontier 1).try_add "a" 0).2) "b" 0 7
      (by decide) (by decide)⟩

/-- Claim C5: for a URL already in `visited`, `try_add` returns false and the
only state change is `duplicates_skipped` increasing by one — the queue, the
visited set, `urls_added` and `invalid_skipped` are untouched. -/
theorem duplicate_fast_path_frame (f : URLFrontier) (url : String) (t : Nat)
    (h : memb url f.visited = true) :
    f.try_add url t = (false, { f with duplicates_skipped := f.duplicates_skipped + 1 }) :=
  try_add_false_of_visited f url t h

/-- Witness for claim C5 at a concrete frontier with "x" visited. -/
theorem duplicate_fast_path_frame_witness :
    memb "x" (((initFrontier 5).try_add "x" 1).2).visited = true ∧
    (((initFrontier 5).try_add "x" 1).2).try_add "x" 9 =
      (false, { (((initFrontier 5).try_add "x" 1).2) with
        duplicates_skipped := (((initFrontier 5).try_add "x" 1).2).duplicates_skipped + 1 }) :=
  ⟨by decide,
    duplicate_fast_path_frame (((initFrontier 5).try_add "x" 1).2) "x" 9 (by decide)⟩

/-- Claim C6: for every sequence of queue operations on a queue constructed
with capacity `c`, the number of buffered items stays between 0 and `c`:
`size()` never exceeds the capacity and, being a natural number, is never
negative. -/
theorem capacity_invariant (c : Nat) (ops : List (QOp String)) :
    (runQ c ops).size ≤ c ∧ 0 ≤ (runQ c ops).size := by
  have h := runQFrom_inv ops (initQueue String c) (by simp [initQueue])
  exact ⟨le_of_le_of_eq h.1 h.2, Nat.zero_le _⟩

/-- Claim C7 (FIFO law): in any instrumented run from a fresh queue, the
sequence of successfully pushed values equals the sequence of popped values
(in pop order) followed by the items still buffered — every pop returns
pushed values in exactly push order, so an item enqueued strictly before
another is dequeued strictly before it. -/
theorem fifo_order (c : Nat) (ops : List (QOp String)) :
    (runQT (initQueue String c) [] [] ops).2.1 =
      (runQT (initQueue String c) [] [] ops).2.2 ++
        (runQT (initQueue String c) [] [] ops).1.items :=
  runQT_fifo ops (initQueue String c) [] [] rfl

/-- Claim C8 (drain after shutdown): on a queue whose shutdown flag is set and
which holds K items, the next K pops (with arbitrary timeouts) each return an
item — exactly the buffered items, in order — after which the queue is empty,
a further pop returns empty, and any push fails leaving the state unchanged
(so the queue stays empty forever). -/
theorem drain_after_shutdown (q : BoundedQueue String) (ts : List Nat)
    (t2 t3 : Nat) (v : String)
    (hs : q.shutdown_flag = true) (hts : ts.length = q.items.length) :
    (popSeq q ts).1 = q.items.map some ∧
    (popSeq q ts).2.items = [] ∧
    ((popSeq q ts).2.pop t2).1 = none ∧
    (popSeq q ts).2.push v t3 = (false, (popSeq q ts).2) := by
  have h := popSeq_drain q.items ts q rfl hts
  rw [h]
  exact ⟨rfl, rfl, rfl, push_shutdown_of_flag _ v t3 (by simpa using hs)⟩

/-- Witness for claim C8: a shut-down queue holding ["a", "b"] drains in two
pops and then stays empty. -/
theorem drain_after_shutdown_witness :
    (BoundedQueue.mk 4 ["a", "b"] true).shutdown_flag = true ∧
    [3, 0].length = (BoundedQueue.mk 4 ["a", "b"] true).items.length ∧
    ((popSeq (BoundedQueue.mk 4 ["a", "b"] true) [3, 0]).1 =
        (BoundedQueue.mk 4 ["a", "b"] true).items.map some ∧
      (popSeq (BoundedQueue.mk 4 ["a", "b"] true) [3, 0]).2.items = [] ∧
      ((popSeq (BoundedQueue.mk 4 ["a", "b"] true) [3, 0]).2.pop 1).1 = none ∧
      (popSeq (BoundedQueue.mk 4 ["a", "b"] true) [3, 0]).2.push "z" 2 =
        (false, (popSeq (BoundedQueue.mk 4 ["a", "b"] true) [3, 0]).2)) :=
  ⟨rfl, rfl,
    drain_after_shutdown (BoundedQueue.mk 4 ["a", "b"] true) [3, 0] 1 2 "z"
      (by decide) (by decide)⟩

/-- Claim C9: calling `shutdown()` N ≥ 1 times leaves the frontier (queue
included) in exactly the state produced by calling it once; afterwards
`is_shutdown()` returns true, and it keeps returning true after any further
sequence of frontier operations — the flag is a one-way false-to-true
transition that is never reset. -/
theorem shutdown_idempotent (f : URLFrontier) (n : Nat) (h : 1 ≤ n)
    (ops : List FOp) :
    shutdownN n f = f.shutdown ∧
    (shutdownN n f).is_shutdown = true ∧
    (runFrom (shutdownN n f) ops).is_shutdown = true := by
  have e := shutdownN_of_pos n f h
  rw [e]
  exact ⟨rfl, rfl, runFrom_flag_true ops f.shutdown rfl⟩

/-- Witness for claim C9: three shutdowns on a fresh frontier equal one, and
`is_shutdown` stays true across later operations. -/
theorem shutdown_idempotent_witness :
    1 ≤ 3 ∧
    (shutdownN 3 (initFrontier 2) = (initFrontier 2).shutdown ∧
      (shutdownN 3 (initFrontier 2)).is_shutdown = true ∧
      (runFrom (shutdownN 3 (initFrontier 2)) [FOp.tryAdd "a" 1, FOp.popOp 0]).is_shutdown = true) :=
  ⟨by decide,
    shutdown_idempotent (initFrontier 2) 3 (by decide) [FOp.tryAdd "a" 1, FOp.popOp 0]⟩

/-- Claim C10: no frontier operation ever increments `invalid_skipped`: after
any sequence of `try_add`, `try_add_nowait`, `add_batch`, `pop`,
`mark_visited` and `shutdown` calls on a fresh frontier, `stats()` reports
`invalid_skipped` = 0. -/
theorem invalid_skipped_always_zero (c : Nat) (ops : List FOp) :
    (runF c ops).stats.invalid_skipped = 0 := by
  have h := runFrom_invalid ops (initFrontier c)
  simpa [runF, URLFrontier.stats, initFrontier] using h
